import Mathlib

/-!
Verification of the resumable, cache-backed batch-processing pipeline of the
`classify` repository.

The development shallowly embeds the three core components described in the
specification and implemented in the Python sources:

* `FilterCache` (`src/filter_cache.py`): a content-addressed cache mapping an
  MD5 digest of (document basename, three filter-criterion values) to a
  previously computed list of matching row numbers, with 7-day staleness and
  basename validation.
* `BatchProcessor` (`src/batch_processor.py`): batched, crash-safe persistence
  of per-row result records with a progress ledger, automatic flushing,
  and a final merge of all batch files into one consolidated artifact.
* `BuddhistQACurator._fast_column_filter` (`src/qa_curator.py`): the
  coordinator's filter scan, which consults the cache, scans the worksheet on
  a miss, and stores non-empty scan results back into the cache.

Modelling conventions:

* Python dicts are embedded as insertion-ordered association lists
  (`dlookup`/`dinsert`/`derase`/`dupdate` below reproduce Python's dict
  semantics: overwrite keeps the original position, fresh keys append).
* Machine-level effects (file writes) are modelled by explicit disk fields in
  the state, and each fallible write takes a `Bool` telling whether the
  corresponding Python `try` block succeeded; on failure the code catches the
  exception, so the model leaves state unchanged exactly where Python does.
* Timestamps (`datetime.now()`) are threaded as explicit `Nat` parameters
  (seconds); `timedelta.days` becomes division by 86400.
* Row identifiers are keyed by `Int` directly.  The spec (section 6) notes
  that row ids "are serialized as strings in all persisted maps (object keys
  cannot be integers in the wire format) but are treated as integers";
  decimal rendering is injective, so the embedding keys maps by the integer.
* String primitives that Python uses (`os.path.basename`, `str.strip`,
  `str.startswith`, list sort) are implemented on `List Char` so that all
  definitions evaluate inside the kernel.
-/

set_option maxRecDepth 4000

namespace Classify

/-! ## Python-dict model: insertion-ordered association lists -/

section Dict

variable {κ α : Type} [DecidableEq κ]

/-- Dictionary lookup (`m[k]` / `m.get(k)`). -/
def dlookup : List (κ × α) → κ → Option α
  | [], _ => none
  | (k', v) :: t, k => if k' = k then some v else dlookup t k

/-- Dictionary assignment `m[k] = v`: overwrite in place, or append a fresh
key at the end (Python dicts preserve insertion order). -/
def dinsert : List (κ × α) → κ → α → List (κ × α)
  | [], k, v => [(k, v)]
  | (k', v') :: t, k, v =>
      if k' = k then (k', v) :: t else (k', v') :: dinsert t k v

/-- Dictionary deletion `del m[k]` (removes the first binding of `k`;
dict states built by `dinsert` have unique keys). -/
def derase : List (κ × α) → κ → List (κ × α)
  | [], _ => []
  | (k', v') :: t, k => if k' = k then t else (k', v') :: derase t k

/-- Dictionary merge `m.update(m2)`: insert every binding of `m2` in order. -/
def dupdate (m m2 : List (κ × α)) : List (κ × α) :=
  m2.foldl (fun acc p => dinsert acc p.1 p.2) m

theorem dlookup_eq_none_iff (m : List (κ × α)) (k : κ) :
    dlookup m k = none ↔ k ∉ m.map Prod.fst := by
  induction m with
  | nil => simp [dlookup]
  | cons p t ih =>
    obtain ⟨k', v⟩ := p
    by_cases h : k' = k
    · subst h
      simp [dlookup]
    · rw [dlookup, if_neg h]
      simp only [List.map_cons, List.mem_cons, ih]
      constructor
      · intro hk hc
        rcases hc with hc | hc
        · exact h hc.symm
        · exact hk hc
      · intro hk
        exact fun hc => hk (Or.inr hc)

theorem dlookup_dinsert_self (m : List (κ × α)) (k : κ) (v : α) :
    dlookup (dinsert m k v) k = some v := by
  induction m with
  | nil => simp [dinsert, dlookup]
  | cons p t ih =>
    obtain ⟨k', v'⟩ := p
    by_cases h : k' = k
    · simp [dinsert, dlookup, h]
    · simp [dinsert, dlookup, h, ih]

theorem dlookup_dinsert_ne (m : List (κ × α)) (k k' : κ) (v : α) (h : k' ≠ k) :
    dlookup (dinsert m k v) k' = dlookup m k' := by
  induction m with
  | nil =>
    simp only [dinsert, dlookup]
    rw [if_neg (fun hk : k = k' => h hk.symm)]
  | cons p t ih =>
    obtain ⟨k₀, v₀⟩ := p
    by_cases h0 : k₀ = k
    · subst h0
      simp only [dinsert, if_pos rfl, dlookup]
      rw [if_neg (fun hk : k₀ = k' => h hk.symm), if_neg (fun hk : k₀ = k' => h hk.symm)]
    · simp only [dinsert, if_neg h0, dlookup]
      by_cases h1 : k₀ = k'
      · rw [if_pos h1, if_pos h1]
      · rw [if_neg h1, if_neg h1, ih]

theorem dinsert_of_lookup_none (m : List (κ × α)) (k : κ) (v : α)
    (h : dlookup m k = none) : dinsert m k v = m ++ [(k, v)] := by
  induction m with
  | nil => simp [dinsert]
  | cons p t ih =>
    obtain ⟨k', v'⟩ := p
    by_cases h0 : k' = k
    · simp [dlookup, h0] at h
    · simp only [dlookup, if_neg h0] at h
      simp [dinsert, h0, ih h]

theorem length_dinsert_of_lookup_none (m : List (κ × α)) (k : κ) (v : α)
    (h : dlookup m k = none) : (dinsert m k v).length = m.length + 1 := by
  rw [dinsert_of_lookup_none m k v h]
  simp

theorem dlookup_derase_self_of_nodup (m : List (κ × α)) (k : κ)
    (h : (m.map Prod.fst).Nodup) : dlookup (derase m k) k = none := by
  induction m with
  | nil => simp [derase, dlookup]
  | cons p t ih =>
    obtain ⟨k', v'⟩ := p
    simp only [List.map_cons, List.nodup_cons] at h
    by_cases h0 : k' = k
    · subst h0
      simp only [derase, if_pos rfl]
      exact (dlookup_eq_none_iff t k').mpr h.1
    · simp [derase, dlookup, h0, ih h.2]

end Dict

/-! ## Character-level string primitives

Python's `os.path.basename`, `str.strip`, `str.startswith`/`endswith` and
`list.sort()` are re-implemented over `String.data` so that every definition
reduces in the kernel. -/

/-- Python `os.path.basename`: the suffix after the last `/` (POSIX semantics; a
trailing slash yields the empty string, exactly as in Python). -/
def basename (p : String) : String :=
  ⟨p.data.foldl (fun acc c => if c = '/' then [] else acc ++ [c]) []⟩

/-- ASCII whitespace recognizer used by `pyStrip`. -/
def isSpaceChar (c : Char) : Bool :=
  c = ' ' || c = '\t' || c = '\n' || c = '\r'

/-- Python `str.strip()`: remove leading and trailing whitespace. -/
def pyStrip (s : String) : String :=
  ⟨((s.data.dropWhile isSpaceChar).reverse.dropWhile isSpaceChar).reverse⟩

/-- Python `str.startswith`. -/
def pyStartsWith (s pre : String) : Bool :=
  pre.data.isPrefixOf s.data

/-- Python `str.endswith`. -/
def pyEndsWith (s suf : String) : Bool :=
  suf.data.isSuffixOf s.data

/-- Code-point lexicographic comparison on character lists (the order Python
uses to sort strings). -/
def lexLe : List Char → List Char → Bool
  | [], _ => true
  | _ :: _, [] => false
  | a :: s, b :: t =>
      if a.toNat < b.toNat then true
      else if b.toNat < a.toNat then false
      else lexLe s t

/-- Insert into a sorted list (helper for `sortStrings`). -/
def insertSorted (x : String) : List String → List String
  | [] => [x]
  | y :: t => if lexLe x.data y.data then x :: y :: t else y :: insertSorted x t

/-- Python `list.sort()` on strings: stable ascending sort.  On strings,
equal elements are identical, so insertion sort is extensionally the same
function as any stable sort. -/
def sortStrings (l : List String) : List String :=
  l.foldr insertSorted []

theorem insertSorted_perm (x : String) (l : List String) :
    (insertSorted x l).Perm (x :: l) := by
  induction l with
  | nil => simp [insertSorted]
  | cons y t ih =>
    simp only [insertSorted]
    by_cases h : lexLe x.data y.data
    · simp [h]
    · simp only [h, Bool.false_eq_true, if_false]
      exact (ih.cons y).trans (List.Perm.swap x y t)

theorem sortStrings_perm (l : List String) : (sortStrings l).Perm l := by
  induction l with
  | nil => simp [sortStrings]
  | cons a t ih =>
    simp only [sortStrings, List.foldr_cons]
    exact (insertSorted_perm a _).trans (ih.cons a)

/-! ## MD5 (RFC 1321)

`FilterCache._generate_cache_key` uses `hashlib.md5(key_string).hexdigest()`;
the hash is embedded concretely so cache keys evaluate in the kernel.
32-bit machine words are `Nat` reduced mod `2 ^ 32`. -/

/-- Truncate to a 32-bit word. -/
def w32 (n : Nat) : Nat := n % 4294967296

/-- The 32-bit left rotation (for `x < 2 ^ 32`, `0 < s < 32`). -/
def rotl32 (x s : Nat) : Nat := w32 ((x <<< s) ||| (x >>> (32 - s)))

/-- The 64 round constants `K[i] = floor(abs(sin(i + 1)) * 2 ^ 32)`. -/
def md5K : List Nat :=
  [0xd76aa478, 0xe8c7b756, 0x242070db, 0xc1bdceee,
   0xf57c0faf, 0x4787c62a, 0xa8304613, 0xfd469501,
   0x698098d8, 0x8b44f7af, 0xffff5bb1, 0x895cd7be,
   0x6b901122, 0xfd987193, 0xa679438e, 0x49b40821,
   0xf61e2562, 0xc040b340, 0x265e5a51, 0xe9b6c7aa,
   0xd62f105d, 0x02441453, 0xd8a1e681, 0xe7d3fbc8,
   0x21e1cde6, 0xc33707d6, 0xf4d50d87, 0x455a14ed,
   0xa9e3e905, 0xfcefa3f8, 0x676f02d9, 0x8d2a4c8a,
   0xfffa3942, 0x8771f681, 0x6d9d6122, 0xfde5380c,
   0xa4beea44, 0x4bdecfa9, 0xf6bb4b60, 0xbebfbc70,
   0x289b7ec6, 0xeaa127fa, 0xd4ef3085, 0x04881d05,
   0xd9d4d039, 0xe6db99e5, 0x1fa27cf8, 0xc4ac5665,
   0xf4292244, 0x432aff97, 0xab9423a7, 0xfc93a039,
   0x655b59c3, 0x8f0ccc92, 0xffeff47d, 0x85845dd1,
   0x6fa87e4f, 0xfe2ce6e0, 0xa3014314, 0x4e0811a1,
   0xf7537e82, 0xbd3af235, 0x2ad7d2bb, 0xeb86d391]

/-- The 64 per-round shift amounts. -/
def md5S : List Nat :=
  [7, 12, 17, 22, 7, 12, 17, 22, 7, 12, 17, 22, 7, 12, 17, 22,
   5, 9, 14, 20, 5, 9, 14, 20, 5, 9, 14, 20, 5, 9, 14, 20,
   4, 11, 16, 23, 4, 11, 16, 23, 4, 11, 16, 23, 4, 11, 16, 23,
   6, 10, 15, 21, 6, 10, 15, 21, 6, 10, 15, 21, 6, 10, 15, 21]

/-- Round mixing function (F, G, H, I depending on the round quarter). -/
def md5Mix (i b c d : Nat) : Nat :=
  if i < 16 then (b &&& c) ||| ((b ^^^ 4294967295) &&& d)
  else if i < 32 then (d &&& b) ||| ((d ^^^ 4294967295) &&& c)
  else if i < 48 then b ^^^ c ^^^ d
  else c ^^^ (b ||| (d ^^^ 4294967295))

/-- Message-word index for round `i`. -/
def md5Idx (i : Nat) : Nat :=
  if i < 16 then i
  else if i < 32 then (5 * i + 1) % 16
  else if i < 48 then (3 * i + 5) % 16
  else (7 * i) % 16

/-- One of the 64 rounds; `m` is the 16-word message block. -/
def md5Step (m : List Nat) (st : Nat × Nat × Nat × Nat) (i : Nat) :
    Nat × Nat × Nat × Nat :=
  match st with
  | (a, b, c, d) =>
    let x := w32 (md5Mix i b c d + a + md5K.getD i 0 + m.getD (md5Idx i) 0)
    (d, w32 (b + rotl32 x (md5S.getD i 0)), b, c)

/-- Process one 64-byte block. -/
def md5Block (st : Nat × Nat × Nat × Nat) (block : List Nat) :
    Nat × Nat × Nat × Nat :=
  let m := (List.range 16).map (fun j =>
    block.getD (4 * j) 0 + 256 * block.getD (4 * j + 1) 0 +
      65536 * block.getD (4 * j + 2) 0 + 16777216 * block.getD (4 * j + 3) 0)
  match st, (List.range 64).foldl (md5Step m) st with
  | (a0, b0, c0, d0), (a, b, c, d) =>
      (w32 (a0 + a), w32 (b0 + b), w32 (c0 + c), w32 (d0 + d))

/-- MD5 padding: `0x80`, zeros to 56 mod 64, then the 64-bit little-endian
bit length. -/
def md5Pad (msg : List Nat) : List Nat :=
  let bitLen := (8 * msg.length) % 18446744073709551616
  let zeros := (119 - msg.length % 64) % 64
  msg ++ 128 :: List.replicate zeros 0 ++
    (List.range 8).map (fun i => (bitLen >>> (8 * i)) &&& 255)

/-- Split a byte list into 64-byte blocks (structural recursion on a fuel
counter so that the definition reduces in the kernel; `fuel = l.length`
always suffices since each step consumes 64 bytes). -/
def toBlocksAux : Nat → List Nat → List (List Nat)
  | 0, _ => []
  | _, [] => []
  | fuel + 1, l => l.take 64 :: toBlocksAux fuel (l.drop 64)

/-- Split a byte list into 64-byte blocks. -/
def toBlocks (l : List Nat) : List (List Nat) := toBlocksAux l.length l

/-- Lowercase hex digit. -/
def hexDigit (n : Nat) : Char := Char.ofNat (if n < 10 then 48 + n else 87 + n)

/-- Two lowercase hex digits of a byte. -/
def byteHex (n : Nat) : List Char := [hexDigit (n / 16), hexDigit (n % 16)]

/-- Little-endian hex rendering of a 32-bit word. -/
def wordHex (w : Nat) : List Char :=
  byteHex (w % 256) ++ byteHex (w / 256 % 256) ++ byteHex (w / 65536 % 256) ++
    byteHex (w / 16777216 % 256)

/-- The full digest of a byte string, as a 32-character lowercase hex string. -/
def md5HexBytes (msg : List Nat) : String :=
  match (toBlocks (md5Pad msg)).foldl md5Block
      (0x67452301, 0xefcdab89, 0x98badcfe, 0x10325476) with
  | (a, b, c, d) => ⟨wordHex a ++ wordHex b ++ wordHex c ++ wordHex d⟩

/-- UTF-8 encoding of one code point (Python `str.encode('utf-8')`). -/
def utf8Encode (c : Nat) : List Nat :=
  if c < 128 then [c]
  else if c < 2048 then [192 ||| (c >>> 6), 128 ||| (c &&& 63)]
  else if c < 65536 then
    [224 ||| (c >>> 12), 128 ||| ((c >>> 6) &&& 63), 128 ||| (c &&& 63)]
  else
    [240 ||| (c >>> 18), 128 ||| ((c >>> 12) &&& 63),
     128 ||| ((c >>> 6) &&& 63), 128 ||| (c &&& 63)]

/-- UTF-8 bytes of a string. -/
def strBytes (s : String) : List Nat :=
  s.data.foldr (fun c acc => utf8Encode c.toNat ++ acc) []

/-- Python `hashlib.md5(s.encode('utf-8')).hexdigest()`. -/
def md5Hex (s : String) : String := md5HexBytes (strBytes s)

/-- Sanity check against the RFC 1321 test-suite vector for the empty string. -/
theorem md5Hex_empty : md5Hex "" = "d41d8cd98f00b204e9800998ecf8427e" := by decide

/-- Sanity check against the RFC 1321 test-suite vector for `"abc"`. -/
theorem md5Hex_abc : md5Hex "abc" = "900150983cd24fb0d6963f7d28e17f72" := by decide

/-! ## Decimal rendering and `batch_{n:03d}.json` file names -/

/-- Decimal digits, most significant first, by structural recursion on a
fuel counter so the definition reduces in the kernel (`fuel = n` always
suffices: each step divides by 10). -/
def natDigitsAux : Nat → Nat → List Nat
  | 0, n => [n % 10]
  | fuel + 1, n => if n < 10 then [n] else natDigitsAux fuel (n / 10) ++ [n % 10]

/-- Decimal digits of a natural number, most significant first. -/
def natDigits (n : Nat) : List Nat := natDigitsAux n n

/-- The character of one decimal digit. -/
def digitChar (d : Nat) : Char := Char.ofNat (48 + d)

/-- Python `str(n)` for a natural number. -/
def natDecimal (n : Nat) : String := ⟨(natDigits n).map digitChar⟩

/-- Python `f"{n:03d}"`: zero-pad the decimal rendering to at least
3 characters. -/
def pad3Chars (n : Nat) : List Char :=
  (if n < 10 then ['0', '0'] else if n < 100 then ['0'] else []) ++
    (natDigits n).map digitChar

/-- The batch file name `f"batch_{n:03d}.json"`. -/
def batchName (n : Nat) : String :=
  ⟨"batch_".data ++ pad3Chars n ++ ".json".data⟩

theorem natDigitsAux_val (fuel : Nat) :
    ∀ n, n ≤ fuel → (natDigitsAux fuel n).foldl (fun a d => 10 * a + d) 0 = n := by
  induction fuel with
  | zero =>
    intro n hn
    interval_cases n
    rfl
  | succ fuel ih =>
    intro n hn
    by_cases h : n < 10
    · rw [natDigitsAux, if_pos h]
      simp
    · rw [natDigitsAux, if_neg h, List.foldl_append, ih (n / 10) (by omega)]
      simp [Nat.div_add_mod]

theorem digitsVal_natDigits (n : Nat) :
    (natDigits n).foldl (fun a d => 10 * a + d) 0 = n :=
  natDigitsAux_val n n (Nat.le_refl n)

theorem natDigitsAux_lt_ten (fuel : Nat) :
    ∀ n, ∀ d ∈ natDigitsAux fuel n, d < 10 := by
  induction fuel with
  | zero =>
    intro n d hd
    simp only [natDigitsAux, List.mem_singleton] at hd
    subst hd
    exact Nat.mod_lt _ (by omega)
  | succ fuel ih =>
    intro n d hd
    by_cases h : n < 10
    · rw [natDigitsAux, if_pos h] at hd
      simp only [List.mem_singleton] at hd
      omega
    · rw [natDigitsAux, if_neg h] at hd
      rcases List.mem_append.mp hd with hd | hd
      · exact ih (n / 10) d hd
      · simp only [List.mem_singleton] at hd
        subst hd
        exact Nat.mod_lt _ (by omega)

theorem natDigits_lt_ten (n : Nat) : ∀ d ∈ natDigits n, d < 10 :=
  natDigitsAux_lt_ten n n

theorem digitChar_toNat {d : Nat} (h : d < 10) : (digitChar d).toNat = 48 + d := by
  revert h
  revert d
  have : ∀ d, d < 10 → (digitChar d).toNat = 48 + d := by decide
  exact this

/-- Reading a digit-character list back as a number. -/
def charsVal (l : List Char) : Nat :=
  l.foldl (fun a c => 10 * a + (c.toNat - 48)) 0

theorem charsVal_go (l : List Nat) (hl : ∀ d ∈ l, d < 10) (a : Nat) :
    (l.map digitChar).foldl (fun a c => 10 * a + (c.toNat - 48)) a =
      l.foldl (fun a d => 10 * a + d) a := by
  induction l generalizing a with
  | nil => rfl
  | cons d t ih =>
    simp only [List.map_cons, List.foldl_cons]
    rw [digitChar_toNat (hl d (List.mem_cons_self d t)), Nat.add_sub_cancel_left]
    exact ih (fun e he => hl e (List.mem_cons_of_mem d he)) _

theorem charsVal_pad3Chars (n : Nat) : charsVal (pad3Chars n) = n := by
  have hz : ∀ pre : List Char, (∀ c ∈ pre, c = '0') →
      pre.foldl (fun a c => 10 * a + (c.toNat - 48)) 0 = 0 := by
    intro pre hpre
    induction pre with
    | nil => rfl
    | cons c t ih =>
      have hc := hpre c (List.mem_cons_self c t)
      subst hc
      simp only [List.foldl_cons]
      exact ih (fun c hc => hpre c (List.mem_cons_of_mem _ hc))
  unfold charsVal pad3Chars
  rw [List.foldl_append]
  have hpre : (if n < 10 then ['0', '0'] else if n < 100 then ['0'] else
      ([] : List Char)).foldl (fun a c => 10 * a + (c.toNat - 48)) 0 = 0 := by
    apply hz
    intro c hc
    by_cases h1 : n < 10
    · simp only [if_pos h1, List.mem_cons, List.not_mem_nil, or_false] at hc
      rcases hc with hc | hc <;> exact hc
    · by_cases h2 : n < 100
      · simp only [if_neg h1, if_pos h2, List.mem_singleton] at hc
        exact hc
      · simp [if_neg h1, if_neg h2] at hc
  rw [hpre, charsVal_go _ (natDigits_lt_ten n), digitsVal_natDigits]

theorem pad3Chars_inj {m n : Nat} (h : pad3Chars m = pad3Chars n) : m = n := by
  have := congrArg charsVal h
  rwa [charsVal_pad3Chars, charsVal_pad3Chars] at this

theorem batchName_inj {m n : Nat} (h : batchName m = batchName n) : m = n := by
  have hd := congrArg String.data h
  simp only [batchName, List.append_assoc] at hd
  exact pad3Chars_inj
    (List.append_cancel_right (List.append_cancel_left hd))

/-! ## `FilterCache` (`src/filter_cache.py`)

The cache maps an MD5 hex digest to a cache entry.  The on-disk copy written
by `_save_cache` is not modelled: no claim observes it (any write failure is
caught and logged, and the in-memory map stays authoritative for the process
lifetime), so the in-memory `cache_data` dict is the whole state. -/

/-- Scan statistics stored alongside a cached result
(`scan_stats` in `save_filter_result`; the float-valued `efficiency` and
`scan_time` entries are outside the integer model). -/
structure ScanStats where
  scanStart : Nat
  scanEnd : Nat
  totalScanned : Nat
deriving DecidableEq, Repr

/-- One cache entry, as built by `FilterCache.save_filter_result`.
`cacheTime` is optional because `_is_cache_valid` tolerates a missing
`cache_time` field (entries written by `save_filter_result` always carry
one); `scanStats = none` models the `scan_stats or {}` default. -/
structure CacheEntry where
  excelFile : String
  fValue : String
  gValue : String
  hValue : String
  rows : List Nat
  cacheTime : Option Nat
  scanStats : Option ScanStats
deriving DecidableEq, Repr

/-- The in-memory state of a `FilterCache`. -/
structure FilterCache where
  cacheData : List (String × CacheEntry)
deriving DecidableEq, Repr

/-- The pre-hash string of `FilterCache._generate_cache_key`:
`"|".join([basename, f, g, h])`.  (The Python code applies `or ""` to the
three criterion values; on strings this is the identity, since `"" or ""`
is `""`.) -/
def key_string_raw (base f g h : String) : String :=
  String.intercalate "|" [base, f, g, h]

/-- Model of `FilterCache._generate_cache_key`: MD5 hex digest of the joined key
string built from the document basename and the three criterion values. -/
def generate_cache_key (excelFile f g h : String) : String :=
  md5Hex (key_string_raw (basename excelFile) f g h)

/-- Model of `FilterCache._is_cache_valid`: the stored basename must equal the
basename of the looked-up file, and if a cache timestamp is present the
entry must be at most 7 days old (`(datetime.now() - cache_time).days > 7`
invalidates; a malformed timestamp is tolerated as valid, which the
`Option` already covers). -/
def is_cache_valid (now : Nat) (e : CacheEntry) (excelFile : String) : Bool :=
  if e.excelFile ≠ basename excelFile then false
  else
    match e.cacheTime with
    | none => true
    | some t => if (now - t) / 86400 > 7 then false else true

/-- Model of `FilterCache.get_cached_result`: compute the key; on a present entry,
return its rows if valid, otherwise delete the entry (and persist) and
return `None`; on an absent key return `None`. -/
def get_cached_result (now : Nat) (c : FilterCache)
    (excelFile f g h : String) : FilterCache × Option (List Nat) :=
  let key := generate_cache_key excelFile f g h
  match dlookup c.cacheData key with
  | some e =>
      if is_cache_valid now e excelFile then (c, some e.rows)
      else ({ cacheData := derase c.cacheData key }, none)
  | none => (c, none)

/-- Model of `FilterCache.save_filter_result`: write/overwrite the entry for the key
with the current timestamp (and persist the map). -/
def save_filter_result (now : Nat) (c : FilterCache) (excelFile f g h : String)
    (rows : List Nat) (stats : Option ScanStats) : FilterCache :=
  let key := generate_cache_key excelFile f g h
  let e : CacheEntry :=
    { excelFile := basename excelFile, fValue := f, gValue := g, hValue := h,
      rows := rows, cacheTime := some now, scanStats := stats }
  { cacheData := dinsert c.cacheData key e }

/-! ## Coordinator filter scan (`BuddhistQACurator._fast_column_filter`)

The worksheet is modelled by the three columns the filter reads (F = column
6, G = column 7, H = column 8); a cell value of `none` models a `None` cell,
and any other Python value appears as its `str(...)` rendering. -/

/-- The part of the worksheet visible to `_fast_column_filter`. -/
structure Worksheet where
  maxRow : Nat
  cellF : Nat → Option String
  cellG : Nat → Option String
  cellH : Nat → Option String

/-- The filter conditions dict: a criterion is absent when the key
(`column_f_value` etc.) is not in the dict. -/
structure FilterConds where
  f : Option String
  g : Option String
  h : Option String
deriving DecidableEq, Repr

/-- The configuration values `_fast_column_filter` reads
(`excel.file_path`, `filter.start_index`, `filter.end_index`,
`filter.score_all_filtered`, `filter.scan_full_file`). -/
structure CuratorConfig where
  filePath : String
  startIndex : Nat
  endIndex : Nat
  scoreAllFiltered : Bool
  scanFullFile : Bool
deriving DecidableEq, Repr

/-- Cell normalization: `"" if value is None else value`, then
`str(...).strip()`. -/
def normCell (v : Option String) : String := pyStrip (v.getD "")

/-- Whether a row passes every present criterion (the code checks H, then
G, then F, `continue`-ing on the first mismatch; that early exit is an
optimization with no effect on the resulting row set). -/
def matchesRow (ws : Worksheet) (conds : FilterConds) (row : Nat) : Bool :=
  (match conds.h with
   | none => true
   | some hv => normCell (ws.cellH row) = hv) &&
  (match conds.g with
   | none => true
   | some gv => normCell (ws.cellG row) = gv) &&
  (match conds.f with
   | none => true
   | some fv => normCell (ws.cellF row) = fv)

/-- The last scanned row: the whole file when `scan_full_file` is set,
otherwise at most row 1000. -/
def scanEndOf (cfg : CuratorConfig) (ws : Worksheet) : Nat :=
  if cfg.scanFullFile then ws.maxRow else min ws.maxRow 1000

/-- The scan loop: rows 7 through `scanEndOf`, keeping every matching row.
The loop never stops early — on reaching `required_count` matches it only
logs and keeps scanning "to build the complete cache". -/
def scanRows (ws : Worksheet) (conds : FilterConds) (cfg : CuratorConfig) :
    List Nat :=
  (List.range' 7 (scanEndOf cfg ws + 1 - 7)).filter (matchesRow ws conds)

/-- The number of filter matches the caller intends to consume
(`required_count`): all of them under `score_all_filtered` (`float('inf')`,
modelled as `none`), one when `end_index == 0`, else the sub-range size.
The scan computes it but uses it only in log messages; it never truncates
the row list. -/
def requiredCount (cfg : CuratorConfig) : Option Nat :=
  if cfg.scoreAllFiltered then none
  else if cfg.endIndex = 0 then some 1
  else some (cfg.endIndex - cfg.startIndex + 1)

/-- The scan-and-store tail of `_fast_column_filter`: after a miss (or an
empty cached list), scan the worksheet; a non-empty result is saved to the
cache (`if self.filter_cache and filtered_rows:`), an empty one is not. -/
def scan_and_store (now : Nat) (c1 : FilterCache) (cfg : CuratorConfig)
    (conds : FilterConds) (ws : Worksheet) : Option FilterCache × List Nat :=
  if (scanRows ws conds cfg).isEmpty then (some c1, scanRows ws conds cfg)
  else
    (some (save_filter_result now c1 cfg.filePath (conds.f.getD "")
        (conds.g.getD "") (conds.h.getD "") (scanRows ws conds cfg)
        (some { scanStart := 7, scanEnd := scanEndOf cfg ws,
                totalScanned := scanEndOf cfg ws - 7 + 1 })),
      scanRows ws conds cfg)

/-- Model of `BuddhistQACurator._fast_column_filter` with a cache
(`self.filter_cache` may be `None`, in which case no lookup or store
happens): look up the criteria; a non-empty cached list (`if cached_rows:`
— both `None` and `[]` are falsy) is returned directly, anything else falls
through to the scan. -/
def fast_column_filter (now : Nat) (cache : Option FilterCache)
    (cfg : CuratorConfig) (conds : FilterConds) (ws : Worksheet) :
    Option FilterCache × List Nat :=
  match cache with
  | none => (none, scanRows ws conds cfg)
  | some c =>
      match (get_cached_result now c cfg.filePath (conds.f.getD "")
          (conds.g.getD "") (conds.h.getD "")).2 with
      | some rows =>
          if rows.isEmpty then
            scan_and_store now (get_cached_result now c cfg.filePath
              (conds.f.getD "") (conds.g.getD "") (conds.h.getD "")).1
              cfg conds ws
          else (some (get_cached_result now c cfg.filePath (conds.f.getD "")
            (conds.g.getD "") (conds.h.getD "")).1, rows)
      | none => scan_and_store now (get_cached_result now c cfg.filePath
          (conds.f.getD "") (conds.g.getD "") (conds.h.getD "")).1
          cfg conds ws

/-! ## `BatchProcessor` (`src/batch_processor.py`)

The state carries both the in-memory fields of the Python object
(`progress`, `current_batch`, `current_batch_num`) and the durable files it
writes (`progress.json` and the `batch_XXX.json` files, keyed by
filename). -/

/-- A result record: the Python dicts passed to `add_result`, with string
fields; the merge step inspects only `record.get('status')`. -/
abbrev Record := List (String × String)

/-- Python `r.get('status') == 'success'`. -/
def isSuccess (r : Record) : Bool := decide (dlookup r "status" = some "success")

/-- The contents of `progress.json`. -/
structure ProgressData where
  completedRows : List Int
  batchFiles : List String
  startTime : Nat
  lastUpdate : Nat
deriving DecidableEq, Repr

/-- The contents of one `batch_XXX.json` file: `metadata` plus the result
map. -/
structure BatchData where
  batchNumber : Nat
  recordCount : Nat
  createdTime : Nat
  results : List (Int × Record)
deriving DecidableEq, Repr

/-- The full state of a `BatchProcessor` plus its working directory. -/
structure BPState where
  batchSize : Nat
  baseDir : String
  completedRows : List Int
  batchFilesLedger : List String
  startTime : Nat
  lastUpdate : Nat
  currentBatch : List (Int × Record)
  currentBatchNum : Nat
  diskProgress : Option ProgressData
  diskBatches : List (String × BatchData)
deriving DecidableEq, Repr

/-- The consolidated artifact written by `_merge_all_batches`
(metadata plus the merged result map; `batch_processing: True` is a
constant field and is left implicit). -/
structure FinalData where
  processingStartTime : Nat
  processingEndTime : Nat
  totalProcessed : Nat
  totalSuccess : Nat
  totalFailed : Nat
  batchCount : Nat
  batchSize : Nat
  batchDirectory : String
  results : List (Int × Record)
deriving DecidableEq, Repr

/-- Python `int(filename[6:9])` after the `startswith('batch_')` and
`endswith('.json')` guards: up to three characters, which must be a
non-empty all-digit string for `int()` to succeed. -/
def parseBatchNum (f : String) : Option Nat :=
  let sub := (f.data.drop 6).take 3
  if sub ≠ [] ∧ sub.all (fun c => 48 ≤ c.toNat && c.toNat ≤ 57) then
    some (charsVal sub)
  else none

/-- Model of `BatchProcessor._get_next_batch_number`: one more than the largest
parsed number among the ledger's batch file names (1 when the ledger is
empty, or when nothing parses). -/
def next_batch_number (files : List String) : Nat :=
  if files.isEmpty then 1
  else
    (files.foldl (fun m f =>
      if pyStartsWith f "batch_" && pyEndsWith f ".json" then
        match parseBatchNum f with
        | some n => max m n
        | none => m
      else m) 0) + 1

/-- Model of `BatchProcessor.__init__` followed by `_load_progress`: restore the
progress ledger from disk when present (a corrupt ledger also falls back to
fresh), open an empty batch, and compute the next batch number. -/
def initBP (batchSize : Nat) (baseDir : String) (now : Nat)
    (diskProgress : Option ProgressData)
    (diskBatches : List (String × BatchData)) : BPState :=
  let p := match diskProgress with
    | some p => p
    | none => ⟨[], [], now, now⟩
  { batchSize := batchSize, baseDir := baseDir,
    completedRows := p.completedRows, batchFilesLedger := p.batchFiles,
    startTime := p.startTime, lastUpdate := p.lastUpdate,
    currentBatch := [], currentBatchNum := next_batch_number p.batchFiles,
    diskProgress := diskProgress, diskBatches := diskBatches }

/-- Model of `BatchProcessor.is_processed`: membership in
`progress['completed_rows']`. -/
def is_processed (s : BPState) (rowId : Int) : Bool :=
  decide (rowId ∈ s.completedRows)

/-- Model of `BatchProcessor._save_progress`: stamp `last_update`, then write the
ledger to `progress.json`; a write failure is caught and logged, leaving
only the in-memory timestamp changed. -/
def save_progress (now : Nat) (progWriteOk : Bool) (s : BPState) : BPState :=
  let s1 := { s with lastUpdate := now }
  if progWriteOk then
    { s1 with diskProgress := some ⟨s1.completedRows, s1.batchFilesLedger,
        s1.startTime, s1.lastUpdate⟩ }
  else s1

/-- Model of `BatchProcessor._save_current_batch`: a no-op on an empty batch;
otherwise write the batch file (a failure of this write is the only raise
site inside the `try`, is caught, and returns `None` with every in-memory
field untouched), record the filename in the ledger if new, persist the
ledger, then reset the open batch and advance the sequence number. -/
def save_current_batch (now : Nat) (batchWriteOk progWriteOk : Bool)
    (s : BPState) : BPState × Option String :=
  if s.currentBatch.isEmpty then (s, none)
  else if batchWriteOk = false then (s, none)
  else
    let fname := batchName s.currentBatchNum
    let bd : BatchData := ⟨s.currentBatchNum, s.currentBatch.length, now,
      s.currentBatch⟩
    let s1 := { s with
      diskBatches := dinsert s.diskBatches fname bd,
      batchFilesLedger :=
        if decide (fname ∈ s.batchFilesLedger) then s.batchFilesLedger
        else s.batchFilesLedger ++ [fname] }
    let s2 := save_progress now progWriteOk s1
    ({ s2 with currentBatch := [], currentBatchNum := s.currentBatchNum + 1 },
      some (s.baseDir ++ "/" ++ fname))

/-- Model of `BatchProcessor.add_result`: an already-processed row is a no-op
returning `False`; otherwise the record goes into the open batch, the row
id is appended to the completed set, a full batch is flushed, and the call
returns `True`. -/
def add_result (now : Nat) (batchWriteOk progWriteOk : Bool) (s : BPState)
    (rowId : Int) (rec : Record) : BPState × Bool :=
  if is_processed s rowId then (s, false)
  else
    let s1 := { s with
      currentBatch := dinsert s.currentBatch rowId rec,
      completedRows := s.completedRows ++ [rowId] }
    if s1.currentBatch.length ≥ s1.batchSize then
      ((save_current_batch now batchWriteOk progWriteOk s1).1, true)
    else (s1, true)

/-- One step of the merge loop in `_merge_all_batches`: missing batch files
are skipped with a warning (an unreadable file is skipped the same way);
otherwise the file's results are merged with `dict.update` and the counters
advance by the file's record count and its number of `'success'`
records. -/
def mergeStep (disk : List (String × BatchData))
    (acc : List (Int × Record) × Nat × Nat) (f : String) :
    List (Int × Record) × Nat × Nat :=
  match dlookup disk f with
  | none => acc
  | some bd =>
      (dupdate acc.1 bd.results, acc.2.1 + bd.results.length,
       acc.2.2 + (bd.results.filter (fun p => isSuccess p.2)).length)

/-- Model of `BatchProcessor._merge_all_batches`: sort the ledger's file list in
place (`batch_files.sort()` aliases `progress['batch_files']`), fold the
merge step over it, and write the consolidated artifact (`None` on a write
failure, which the `except` catches). -/
def merge_all_batches (now : Nat) (finalWriteOk : Bool) (s : BPState)
    (finalName : Option String) : BPState × Option (String × FinalData) :=
  let name := finalName.getD ("qa_curation_results_" ++ natDecimal now ++ ".json")
  let sorted := sortStrings s.batchFilesLedger
  let s1 := { s with batchFilesLedger := sorted }
  let r := sorted.foldl (mergeStep s1.diskBatches) ([], 0, 0)
  let fd : FinalData :=
    { processingStartTime := s1.startTime, processingEndTime := now,
      totalProcessed := r.2.1, totalSuccess := r.2.2,
      totalFailed := r.2.1 - r.2.2, batchCount := sorted.length,
      batchSize := s1.batchSize, batchDirectory := s1.baseDir,
      results := r.1 }
  if finalWriteOk then (s1, some (name, fd)) else (s1, none)

/-- Model of `BatchProcessor.finalize`: flush the open batch if non-empty, then
merge every batch file into the consolidated artifact. -/
def finalize (now : Nat) (batchWriteOk progWriteOk finalWriteOk : Bool)
    (s : BPState) (finalName : Option String) :
    BPState × Option (String × FinalData) :=
  let s1 := if s.currentBatch.isEmpty then s
    else (save_current_batch now batchWriteOk progWriteOk s).1
  merge_all_batches now finalWriteOk s1 finalName

/-- Apply a sequence of `add_result` calls (all durable writes
succeeding), as the coordinator's row loop does. -/
def runAdds (now : Nat) (ops : List (Int × Record)) (s : BPState) : BPState :=
  ops.foldl (fun st p => (add_result now true true st p.1 p.2).1) s

/-! ## Supporting lemmas about `BatchProcessor` operations -/

theorem length_dinsert_le {κ α : Type} [DecidableEq κ]
    (m : List (κ × α)) (k : κ) (v : α) :
    (dinsert m k v).length ≤ m.length + 1 := by
  induction m with
  | nil => simp [dinsert]
  | cons p t ih =>
    obtain ⟨k', v'⟩ := p
    by_cases h : k' = k
    · simp [dinsert, h]
    · simp only [dinsert, if_neg h, List.length_cons]
      omega

theorem save_current_batch_completedRows (now : Nat) (b p : Bool)
    (s : BPState) : ((save_current_batch now b p s).1).completedRows =
      s.completedRows := by
  unfold save_current_batch save_progress
  by_cases h1 : s.currentBatch.isEmpty
  · simp [h1]
  · by_cases h2 : b = false
    · simp [h1, h2]
    · by_cases h3 : p <;> simp [h1, h2, h3]

theorem add_result_of_processed (now : Nat) (b p : Bool) (s : BPState)
    (r : Int) (rec : Record) (h : is_processed s r = true) :
    add_result now b p s r rec = (s, false) := by
  simp [add_result, h]

theorem add_result_completedRows (now : Nat) (b p : Bool) (s : BPState)
    (r : Int) (rec : Record) (h : is_processed s r = false) :
    ((add_result now b p s r rec).1).completedRows = s.completedRows ++ [r] := by
  simp only [add_result, h, Bool.false_eq_true, if_false]
  by_cases hf : (dinsert s.currentBatch r rec).length ≥ s.batchSize
  · simp only [hf, ge_iff_le, if_pos]
    rw [save_current_batch_completedRows]
  · simp [hf]

theorem add_result_true (now : Nat) (b p : Bool) (s : BPState)
    (r : Int) (rec : Record) (h : is_processed s r = false) :
    (add_result now b p s r rec).2 = true := by
  simp only [add_result, h, Bool.false_eq_true, if_false]
  by_cases hf : (dinsert s.currentBatch r rec).length ≥ s.batchSize <;>
    simp [hf]

/-- C1: for every row id and record, `add_result` on an already-processed
row returns `False` with no mutation at all; on a fresh row it returns
`True`, appends the row id to the completed set, and (when the batch does
not reach capacity) stores the record in the open batch's map under the row
id; and a second `add_result` with the same row id is a no-op returning
`False`, leaving the state — hence the record stored by the first call —
unchanged. -/
theorem c1_add_result_spec (now : Nat) (bOk pOk : Bool) (s : BPState)
    (r : Int) (rec : Record) :
    (is_processed s r = true → add_result now bOk pOk s r rec = (s, false)) ∧
    (is_processed s r = false →
      (add_result now bOk pOk s r rec).2 = true ∧
      ((add_result now bOk pOk s r rec).1).completedRows =
        s.completedRows ++ [r] ∧
      (s.currentBatch.length + 1 < s.batchSize →
        dlookup ((add_result now bOk pOk s r rec).1).currentBatch r =
          some rec)) ∧
    (∀ now2 bOk2 pOk2 rec2,
      add_result now2 bOk2 pOk2 ((add_result now bOk pOk s r rec).1) r rec2 =
        ((add_result now bOk pOk s r rec).1, false)) := by
  refine ⟨fun h => add_result_of_processed now bOk pOk s r rec h, fun h => ?_,
    fun now2 bOk2 pOk2 rec2 => ?_⟩
  · refine ⟨add_result_true now bOk pOk s r rec h,
      add_result_completedRows now bOk pOk s r rec h, fun hlt => ?_⟩
    have hf : ¬ (dinsert s.currentBatch r rec).length ≥ s.batchSize := by
      have := length_dinsert_le s.currentBatch r rec
      omega
    simp only [add_result, h, Bool.false_eq_true, if_false, hf, ge_iff_le,
      if_neg]
    exact dlookup_dinsert_self s.currentBatch r rec
  · apply add_result_of_processed
    by_cases h : is_processed s r = true
    · rw [add_result_of_processed now bOk pOk s r rec h]
      exact h
    · have h' : is_processed s r = false := by
        revert h
        cases is_processed s r <;> simp
      rw [is_processed, decide_eq_true_iff,
        add_result_completedRows now bOk pOk s r rec h']
      exact List.mem_append_right _ (List.mem_singleton_self r)

/-- C1 witness: a concrete run of the specification scenario — a fresh
row is accepted, stored in the open batch, and the second call with the
same row id returns `False` with the state untouched. -/
theorem c1_witness :
    is_processed (initBP 3 "d" 0 none []) 5 = false ∧
    (add_result 1 true true (initBP 3 "d" 0 none []) 5 [("status", "success")]).2 = true ∧
    ((add_result 1 true true (initBP 3 "d" 0 none []) 5 [("status", "success")]).1).completedRows = [] ++ [5] ∧
    dlookup ((add_result 1 true true (initBP 3 "d" 0 none []) 5 [("status", "success")]).1).currentBatch 5 =
      some [("status", "success")] ∧
    add_result 2 true true ((add_result 1 true true (initBP 3 "d" 0 none []) 5 [("status", "success")]).1) 5 [("status", "skip")] =
      ((add_result 1 true true (initBP 3 "d" 0 none []) 5 [("status", "success")]).1, false) := by
  have h := c1_add_result_spec 1 true true (initBP 3 "d" 0 none []) 5 [("status", "success")]
  have h0 : is_processed (initBP 3 "d" 0 none []) 5 = false := by decide
  refine ⟨h0, (h.2.1 h0).1, (h.2.1 h0).2.1, (h.2.1 h0).2.2 (by decide), h.2.2 2 true true [("status", "skip")]⟩

/-- C2 counterexample: from a fresh processor with batch size 10, one
successful `add_result` leaves the durable progress ledger absent entirely
(`_save_progress` runs only inside a batch flush), so a restart that reloads
the ledger no longer knows the row — refuting "after any successful
addResult the progress ledger on durable storage contains rowId". -/
theorem c2_counterexample :
    (add_result 1 true true (initBP 10 "d" 0 none []) 5
        [("status", "success")]).2 = true ∧
    ((add_result 1 true true (initBP 10 "d" 0 none []) 5
        [("status", "success")]).1).diskProgress = none ∧
    is_processed
      (initBP 10 "d" 2
        ((add_result 1 true true (initBP 10 "d" 0 none []) 5
          [("status", "success")]).1).diskProgress
        ((add_result 1 true true (initBP 10 "d" 0 none []) 5
          [("status", "success")]).1).diskBatches) 5 = false := by
  decide

/-- C2 (amended): the ledger becomes durable when a batch flush happens:
a successful `add_result` that fills the open batch to capacity (with the
batch-file and ledger writes succeeding) leaves the row id in the progress
ledger on durable storage, and `isProcessed` is true again after a restart
that reloads that ledger.  Rows added between flushes are not yet durable
(see the counterexample), so termination loses at most the open batch's
uncommitted rows. -/
theorem c2_flush_makes_durable (now : Nat) (s : BPState) (r : Int)
    (rec : Record) (h1 : is_processed s r = false)
    (h2 : dlookup s.currentBatch r = none)
    (h3 : s.batchSize ≤ s.currentBatch.length + 1) :
    ∃ p, ((add_result now true true s r rec).1).diskProgress = some p ∧
      r ∈ p.completedRows ∧
      ∀ now2 dir bs,
        is_processed (initBP bs dir now2
          ((add_result now true true s r rec).1).diskProgress
          ((add_result now true true s r rec).1).diskBatches) r = true := by
  have hlen : (dinsert s.currentBatch r rec).length =
      s.currentBatch.length + 1 := length_dinsert_of_lookup_none _ _ _ h2
  have hne : ¬ (dinsert s.currentBatch r rec).isEmpty := by
    rw [List.isEmpty_iff_length_eq_zero, hlen]
    omega
  have hge : (dinsert s.currentBatch r rec).length ≥ s.batchSize := by omega
  simp only [add_result, h1, Bool.false_eq_true, if_false, hge, ge_iff_le,
    if_pos, save_current_batch, hne, Bool.false_eq_true, if_false,
    Bool.true_eq_false, save_progress, if_pos]
  refine ⟨_, rfl, List.mem_append_right _ (List.mem_singleton_self r), ?_⟩
  intro now2 dir bs
  simp only [initBP, is_processed, decide_eq_true_iff]
  exact List.mem_append_right _ (List.mem_singleton_self r)

/-- C2 witness: with batch size 1, a fresh `add_result` flushes at once and
the durable ledger contains the row, surviving a simulated restart. -/
theorem c2_witness :
    is_processed (initBP 1 "d" 0 none []) 5 = false ∧
    dlookup (initBP 1 "d" 0 none []).currentBatch 5 = none ∧
    (initBP 1 "d" 0 none []).batchSize ≤
      (initBP 1 "d" 0 none []).currentBatch.length + 1 ∧
    ∃ p, ((add_result 1 true true (initBP 1 "d" 0 none []) 5
        [("status", "success")]).1).diskProgress = some p ∧
      (5 : Int) ∈ p.completedRows := by
  refine ⟨by decide, by decide, by decide, ?_⟩
  obtain ⟨p, hp, hm, _⟩ := c2_flush_makes_durable 1 (initBP 1 "d" 0 none []) 5
    [("status", "success")] (by decide) (by decide) (by decide)
  exact ⟨p, hp, hm⟩

/-- C10: a failed batch-file write is atomic for the in-memory state:
`_save_current_batch` catches the exception and returns `None`, with the
open batch map, the next batch sequence number, and the ledger's batch-file
list (indeed the whole state) exactly as before; the accumulated batch is
then retried at the next flush, which writes the same batch number with all
accumulated records — nothing is lost or double-numbered. -/
theorem c10_failed_flush_atomic (now now2 : Nat) (pOk : Bool) (s : BPState)
    (hne : s.currentBatch ≠ []) :
    save_current_batch now false pOk s = (s, none) ∧
    ((save_current_batch now2 true true s).1).currentBatch = [] ∧
    ((save_current_batch now2 true true s).1).currentBatchNum =
      s.currentBatchNum + 1 ∧
    dlookup ((save_current_batch now2 true true s).1).diskBatches
        (batchName s.currentBatchNum) =
      some ⟨s.currentBatchNum, s.currentBatch.length, now2, s.currentBatch⟩ ∧
    (save_current_batch now2 true true s).2 =
      some (s.baseDir ++ "/" ++ batchName s.currentBatchNum) := by
  have hne' : ¬ s.currentBatch.isEmpty := by
    simpa [List.isEmpty_iff] using hne
  refine ⟨?_, ?_, ?_, ?_, ?_⟩
  · simp [save_current_batch, hne']
  · simp [save_current_batch, hne', save_progress]
  · simp [save_current_batch, hne', save_progress]
  · simp only [save_current_batch, hne', Bool.false_eq_true, if_false,
      Bool.true_eq_false, save_progress, if_pos]
    exact dlookup_dinsert_self _ _ _
  · simp [save_current_batch, hne']

/-- Concrete processor state with one accumulated record, used by the C10
witness. -/
def c10state : BPState :=
  { batchSize := 2, baseDir := "d", completedRows := [5],
    batchFilesLedger := [], startTime := 0, lastUpdate := 0,
    currentBatch := [(5, [("status", "success")])], currentBatchNum := 1,
    diskProgress := none, diskBatches := [] }

/-- C10 witness: concrete evaluation of the failed-then-retried flush. -/
theorem c10_witness :
    save_current_batch 1 false true c10state = (c10state, none) ∧
    (save_current_batch 3 true true c10state).2 =
      some ("d" ++ "/" ++ batchName 1) := by
  have h := c10_failed_flush_atomic 1 3 true c10state (by decide)
  exact ⟨h.1, h.2.2.2.2⟩

/-! ## Claims about the filter cache -/

theorem lookup_after_save (now now2 : Nat) (c : FilterCache)
    (excel f g h : String) (rows : List Nat) (stats : Option ScanStats)
    (hage : (now2 - now) / 86400 ≤ 7) :
    get_cached_result now2 (save_filter_result now c excel f g h rows stats)
        excel f g h =
      (save_filter_result now c excel f g h rows stats, some rows) := by
  have hv : is_cache_valid now2
      { excelFile := basename excel, fValue := f, gValue := g, hValue := h,
        rows := rows, cacheTime := some now, scanStats := stats } excel =
      true := by
    simp only [is_cache_valid]
    rw [if_neg (by simp)]
    simp only [if_neg (by omega : ¬ (now2 - now) / 86400 > 7)]
  simp [get_cached_result, save_filter_result, dlookup_dinsert_self, hv]

/-- C4: storing a filter result and immediately looking it up with the same
document and criteria returns exactly the stored row list, and a lookup
whose key is not present in the cache (a never-stored criteria tuple)
returns `None`. -/
theorem c4_cache_round_trip (now now2 : Nat) (c : FilterCache)
    (excel f g h : String) (rows : List Nat) (stats : Option ScanStats) :
    get_cached_result now (save_filter_result now c excel f g h rows stats)
        excel f g h =
      (save_filter_result now c excel f g h rows stats, some rows) ∧
    (∀ e2 f2 g2 h2,
      dlookup (save_filter_result now c excel f g h rows stats).cacheData
          (generate_cache_key e2 f2 g2 h2) = none →
      get_cached_result now2 (save_filter_result now c excel f g h rows stats)
          e2 f2 g2 h2 =
        (save_filter_result now c excel f g h rows stats, none)) := by
  constructor
  · exact lookup_after_save now now c excel f g h rows stats
      (by simp [Nat.sub_self])
  · intro e2 f2 g2 h2 hnone
    simp [get_cached_result, hnone]

/-- C4 witness: the specification scenario — store
`("a.xlsx","01","04","05") ↦ [82,86,292]`, look it up (hit with the stored
rows), then look up `("a.xlsx","01","04","06")` (miss). -/
theorem c4_witness :
    (get_cached_result 5 (save_filter_result 5 ⟨[]⟩ "a.xlsx" "01" "04" "05"
        [82, 86, 292] none) "a.xlsx" "01" "04" "05").2 = some [82, 86, 292] ∧
    (get_cached_result 5 (save_filter_result 5 ⟨[]⟩ "a.xlsx" "01" "04" "05"
        [82, 86, 292] none) "a.xlsx" "01" "04" "06").2 = none := by
  have h := c4_cache_round_trip 5 5 ⟨[]⟩ "a.xlsx" "01" "04" "05"
    [82, 86, 292] none
  constructor
  · rw [h.1]
  · rw [h.2 "a.xlsx" "01" "04" "06" (by decide)]

theorem is_cache_valid_none (now : Nat) (e : CacheEntry) (excel : String)
    (he : e.cacheTime = none) :
    is_cache_valid now e excel =
      (if e.excelFile ≠ basename excel then false else true) := by
  unfold is_cache_valid
  rw [he]

theorem is_cache_valid_some (now : Nat) (e : CacheEntry) (excel : String)
    (t : Nat) (he : e.cacheTime = some t) :
    is_cache_valid now e excel =
      (if e.excelFile ≠ basename excel then false
       else if (now - t) / 86400 > 7 then false else true) := by
  unfold is_cache_valid
  rw [he]

theorem is_cache_valid_iff (now : Nat) (e : CacheEntry) (excel : String) :
    is_cache_valid now e excel = true ↔
      (e.excelFile = basename excel ∧
        ∀ t, e.cacheTime = some t → (now - t) / 86400 ≤ 7) := by
  by_cases hb : e.excelFile = basename excel
  · cases he : e.cacheTime with
    | none =>
      rw [is_cache_valid_none now e excel he, if_neg (by simpa using hb)]
      simp only [true_iff, iff_true]
      exact ⟨hb, fun t ht => Option.noConfusion ht⟩
    | some t =>
      rw [is_cache_valid_some now e excel t he, if_neg (by simpa using hb)]
      by_cases ht : (now - t) / 86400 > 7
      · rw [if_pos ht]
        simp only [Bool.false_eq_true, false_iff, not_and]
        intro _ hall
        exact absurd (hall t rfl) (by omega)
      · rw [if_neg ht]
        simp only [true_iff, iff_true]
        refine ⟨hb, fun t' ht' => ?_⟩
        injection ht' with hh
        subst hh
        omega
  · constructor
    · intro hval
      exfalso
      revert hval
      unfold is_cache_valid
      rw [if_pos (by simpa using hb)]
      simp
    · intro hcon
      exact absurd hcon.1 hb

/-- C5: a lookup returns the stored row sequence exactly when the entry
exists, its stored basename equals the looked-up document's basename, and
its age is at most 7 (whole) days; an existing entry that fails either
check is deleted from the store immediately and the lookup returns
`None`. -/
theorem c5_lookup_validation (now : Nat) (c : FilterCache)
    (excel f g h : String) (hnd : (c.cacheData.map Prod.fst).Nodup) :
    (∀ rows, (get_cached_result now c excel f g h).2 = some rows ↔
      ∃ e, dlookup c.cacheData (generate_cache_key excel f g h) = some e ∧
        e.excelFile = basename excel ∧
        (∀ t, e.cacheTime = some t → (now - t) / 86400 ≤ 7) ∧
        rows = e.rows) ∧
    (∀ e, dlookup c.cacheData (generate_cache_key excel f g h) = some e →
      (e.excelFile ≠ basename excel ∨
        ∃ t, e.cacheTime = some t ∧ 7 < (now - t) / 86400) →
      get_cached_result now c excel f g h =
        ({ cacheData := derase c.cacheData (generate_cache_key excel f g h) },
          none) ∧
      dlookup (derase c.cacheData (generate_cache_key excel f g h))
        (generate_cache_key excel f g h) = none) := by
  have hinv : ∀ e, (e.excelFile ≠ basename excel ∨
      ∃ t, e.cacheTime = some t ∧ 7 < (now - t) / 86400) →
      is_cache_valid now e excel = false := by
    intro e he
    rw [← Bool.not_eq_true, is_cache_valid_iff]
    rintro ⟨hb, hall⟩
    rcases he with he | ⟨t, ht, hgt⟩
    · exact he hb
    · exact absurd (hall t ht) (by omega)
  cases hk : dlookup c.cacheData (generate_cache_key excel f g h) with
  | none =>
    constructor
    · intro rows
      simp [get_cached_result, hk]
    · intro e he _
      exact absurd he (by simp)
  | some e =>
    by_cases hv : is_cache_valid now e excel = true
    · constructor
      · intro rows
        simp only [get_cached_result, hk, hv, if_true, Option.some.injEq]
        constructor
        · intro hr
          obtain ⟨hb, hall⟩ := (is_cache_valid_iff now e excel).mp hv
          exact ⟨e, rfl, hb, hall, hr.symm⟩
        · rintro ⟨e', he', hb, hall, hr⟩
          subst he'
          exact hr.symm
      · intro e' he' hbad
        injection he' with hh
        subst hh
        rw [hinv e hbad] at hv
        exact absurd hv (by simp)
    · have hv' : is_cache_valid now e excel = false := by
        revert hv
        cases is_cache_valid now e excel <;> simp
      constructor
      · intro rows
        simp only [get_cached_result, hk, hv', Bool.false_eq_true, if_false,
          Option.some.injEq]
        constructor
        · intro hcon
          exact absurd hcon (by simp)
        · rintro ⟨e', he', hb, hall, _⟩
          subst he'
          rw [← Bool.not_eq_true, is_cache_valid_iff] at hv'
          exact absurd ⟨hb, hall⟩ hv'
      · intro e' he' hbad
        injection he' with hh
        subst hh
        refine ⟨?_, dlookup_derase_self_of_nodup c.cacheData _ hnd⟩
        simp [get_cached_result, hk, hv']

/-- C5 witness: a concrete stale entry (8 days old) is deleted by the
lookup, which returns `None`; the characterization also yields the fresh
round trip on a concrete valid entry. -/
theorem c5_witness :
    get_cached_result 691300
        ⟨[(generate_cache_key "a.xlsx" "01" "04" "05",
          { excelFile := "a.xlsx", fValue := "01", gValue := "04",
            hValue := "05", rows := [82], cacheTime := some 0,
            scanStats := none })]⟩ "a.xlsx" "01" "04" "05" =
      (⟨derase [(generate_cache_key "a.xlsx" "01" "04" "05",
          { excelFile := "a.xlsx", fValue := "01", gValue := "04",
            hValue := "05", rows := [82], cacheTime := some 0,
            scanStats := none })] (generate_cache_key "a.xlsx" "01" "04" "05")⟩,
        none) := by
  have h := c5_lookup_validation 691300
    ⟨[(generate_cache_key "a.xlsx" "01" "04" "05",
      { excelFile := "a.xlsx", fValue := "01", gValue := "04",
        hValue := "05", rows := [82], cacheTime := some 0,
        scanStats := none })]⟩ "a.xlsx" "01" "04" "05" (by simp)
  exact (h.2 _ (dlookup_dinsert_self [] _ _)
    (Or.inr ⟨0, rfl, by norm_num⟩)).1

/-! ## Claims about the cache-key derivation -/

theorem key_string_raw_data (b f g h : String) :
    (key_string_raw b f g h).data =
      b.data ++ '|' :: (f.data ++ '|' :: (g.data ++ '|' :: h.data)) := by
  have hjoin : key_string_raw b f g h =
      b ++ "|" ++ f ++ "|" ++ g ++ "|" ++ h := rfl
  rw [hjoin]
  simp [String.data_append, List.append_assoc]

theorem sep_append_inj {a b r r' : List Char} (ha : '|' ∉ a) (hb : '|' ∉ b)
    (h : a ++ '|' :: r = b ++ '|' :: r') : a = b ∧ r = r' := by
  induction a generalizing b with
  | nil =>
    cases b with
    | nil => simpa using h
    | cons y u =>
      simp only [List.nil_append, List.cons_append, List.cons.injEq] at h
      cases h.1
      exact absurd (List.mem_cons_self _ _) hb
  | cons x t ih =>
    cases b with
    | nil =>
      simp only [List.cons_append, List.nil_append, List.cons.injEq] at h
      cases h.1
      exact absurd (List.mem_cons_self _ _) ha
    | cons y u =>
      simp only [List.cons_append, List.cons.injEq] at h
      obtain ⟨h1, h2⟩ := ih (fun hm => ha (List.mem_cons_of_mem x hm))
        (fun hm => hb (List.mem_cons_of_mem y hm)) h.2
      exact ⟨by rw [h.1, h1], h2⟩

/-- C8 counterexample: the key derivation joins its inputs with `"|"` before
hashing, so two distinct input tuples whose values smuggle the separator
produce the identical cache key — refuting "two keys are equal only if all
four inputs are equal". -/
theorem c8_counterexample :
    generate_cache_key "a|b.xlsx" "c" "" "" =
      generate_cache_key "a" "b.xlsx|c" "" "" ∧
    ("a|b.xlsx", "c", "", "") ≠
      (("a", "b.xlsx|c", "", "") : String × String × String × String) := by
  constructor
  · rfl
  · decide

/-- C8 (amended): the cache key is a pure deterministic function of the
document basename and the three criterion values — identical inputs (indeed
any two paths with equal basenames) give the identical key — and the
pre-hash key string is injective as long as no input contains the separator
`|`; however, distinct tuples can collide when a value contains the
separator (see the counterexample), so key equality does not imply input
equality. -/
theorem c8_key_function :
    (∀ e1 e2 f g h : String, basename e1 = basename e2 →
      generate_cache_key e1 f g h = generate_cache_key e2 f g h) ∧
    (∀ b1 f1 g1 h1 b2 f2 g2 h2 : String,
      '|' ∉ b1.data → '|' ∉ f1.data → '|' ∉ g1.data →
      '|' ∉ b2.data → '|' ∉ f2.data → '|' ∉ g2.data →
      key_string_raw b1 f1 g1 h1 = key_string_raw b2 f2 g2 h2 →
      b1 = b2 ∧ f1 = f2 ∧ g1 = g2 ∧ h1 = h2) := by
  constructor
  · intro e1 e2 f g h he
    unfold generate_cache_key
    rw [he]
  · intro b1 f1 g1 h1 b2 f2 g2 h2 hb1 hf1 hg1 hb2 hf2 hg2 hkey
    have hd := congrArg String.data hkey
    rw [key_string_raw_data, key_string_raw_data] at hd
    obtain ⟨hb, hd⟩ := sep_append_inj hb1 hb2 hd
    obtain ⟨hf, hd⟩ := sep_append_inj hf1 hf2 hd
    obtain ⟨hg, hd⟩ := sep_append_inj hg1 hg2 hd
    exact ⟨String.ext hb, String.ext hf, String.ext hg, String.ext hd⟩

/-- C8 witness: concrete applications — two paths with the same basename
give the same key, and equal separator-free key strings force equal
inputs. -/
theorem c8_witness :
    generate_cache_key "dir/a.xlsx" "01" "04" "05" =
      generate_cache_key "tmp/other/a.xlsx" "01" "04" "05" ∧
    (("b.xlsx" : String) = "b.xlsx" ∧ ("01" : String) = "01" ∧
      ("04" : String) = "04" ∧ ("05" : String) = "05") := by
  constructor
  · exact c8_key_function.1 "dir/a.xlsx" "tmp/other/a.xlsx" "01" "04" "05"
      (by decide)
  · exact c8_key_function.2 "b.xlsx" "01" "04" "05" "b.xlsx" "01" "04" "05"
      (by decide) (by decide) (by decide) (by decide) (by decide) (by decide)
      rfl

/-! ## Claims about the coordinator's filter scan -/

theorem fast_column_filter_some_cache (now : Nat) (c : FilterCache)
    (cfg : CuratorConfig) (conds : FilterConds) (ws : Worksheet) :
    fast_column_filter now (some c) cfg conds ws =
      (match (get_cached_result now c cfg.filePath (conds.f.getD "")
          (conds.g.getD "") (conds.h.getD "")).2 with
      | some rows =>
          if rows.isEmpty then
            scan_and_store now (get_cached_result now c cfg.filePath
              (conds.f.getD "") (conds.g.getD "") (conds.h.getD "")).1
              cfg conds ws
          else (some (get_cached_result now c cfg.filePath (conds.f.getD "")
            (conds.g.getD "") (conds.h.getD "")).1, rows)
      | none => scan_and_store now (get_cached_result now c cfg.filePath
          (conds.f.getD "") (conds.g.getD "") (conds.h.getD "")).1
          cfg conds ws) := rfl

theorem fast_column_filter_of_miss (now : Nat) (c : FilterCache)
    (cfg : CuratorConfig) (conds : FilterConds) (ws : Worksheet)
    (hmiss : (get_cached_result now c cfg.filePath (conds.f.getD "")
      (conds.g.getD "") (conds.h.getD "")).2 = none) :
    fast_column_filter now (some c) cfg conds ws =
      scan_and_store now (get_cached_result now c cfg.filePath
        (conds.f.getD "") (conds.g.getD "") (conds.h.getD "")).1
        cfg conds ws := by
  rw [fast_column_filter_some_cache, hmiss]

/-- Concrete worksheet for the C6/C9 scenarios: every row carries
F = "01", G = "04", H = "05". -/
def wsDemo : Worksheet :=
  { maxRow := 9, cellF := fun _ => some "01", cellG := fun _ => some "04",
    cellH := fun _ => some "05" }

/-- Concrete configuration for the C6/C9 scenarios. -/
def cfgDemo : CuratorConfig :=
  { filePath := "a.xlsx", startIndex := 0, endIndex := 0,
    scoreAllFiltered := false, scanFullFile := true }

/-- Criteria matched by no row of `wsDemo` (H differs). -/
def condsNoMatch : FilterConds := { f := some "01", g := some "04", h := some "99" }

/-- Criteria matched by rows 7, 8, 9 of `wsDemo`. -/
def condsMatch : FilterConds := { f := some "01", g := some "04", h := some "05" }

/-- C6 counterexample: on a cache miss whose scan finds no matching rows,
nothing is stored — the cache comes back unchanged (here: still empty), so
the claim's "for every scan outcome" fails; a subsequent lookup with the
same criteria cannot be served from cache. -/
theorem c6_counterexample :
    scanRows wsDemo condsNoMatch cfgDemo = [] ∧
    (get_cached_result 0 ⟨[]⟩ cfgDemo.filePath "01" "04" "99").2 = none ∧
    fast_column_filter 0 (some ⟨[]⟩) cfgDemo condsNoMatch wsDemo =
      (some ⟨[]⟩, []) := by
  decide

/-- C6 (amended): on a cache miss, a scan that finds at least one matching
row stores the complete scanned row sequence in the cache before returning
— independently of `start_index` / `end_index` / `score_all_filtered`,
i.e. of how many results the caller intends to use — so a subsequent lookup
with the same criteria is served from cache; a scan that finds no rows
stores nothing (see the counterexample and C9). -/
theorem c6_nonempty_scan_cached (now : Nat) (c : FilterCache)
    (cfg : CuratorConfig) (conds : FilterConds) (ws : Worksheet)
    (hmiss : (get_cached_result now c cfg.filePath (conds.f.getD "")
      (conds.g.getD "") (conds.h.getD "")).2 = none)
    (hne : scanRows ws conds cfg ≠ []) :
    (fast_column_filter now (some c) cfg conds ws).2 =
      scanRows ws conds cfg ∧
    ∃ c2, (fast_column_filter now (some c) cfg conds ws).1 = some c2 ∧
      (get_cached_result now c2 cfg.filePath (conds.f.getD "")
        (conds.g.getD "") (conds.h.getD "")).2 =
        some (scanRows ws conds cfg) := by
  have hne' : ¬ (scanRows ws conds cfg).isEmpty := by
    simpa [List.isEmpty_iff] using hne
  rw [fast_column_filter_of_miss now c cfg conds ws hmiss]
  unfold scan_and_store
  rw [if_neg hne']
  refine ⟨rfl, _, rfl, ?_⟩
  have := lookup_after_save now now
    (get_cached_result now c cfg.filePath (conds.f.getD "") (conds.g.getD "")
      (conds.h.getD "")).1
    cfg.filePath (conds.f.getD "") (conds.g.getD "") (conds.h.getD "")
    (scanRows ws conds cfg)
    (some { scanStart := 7, scanEnd := scanEndOf cfg ws,
            totalScanned := scanEndOf cfg ws - 7 + 1 })
    (by simp [Nat.sub_self])
  rw [this]

/-- C6 witness: a concrete miss whose scan finds rows 7–9; all three are
stored and the follow-up lookup returns them from the cache. -/
theorem c6_witness :
    (fast_column_filter 3 (some ⟨[]⟩) cfgDemo condsMatch wsDemo).2 =
      scanRows wsDemo condsMatch cfgDemo ∧
    ∃ c2, (fast_column_filter 3 (some ⟨[]⟩) cfgDemo condsMatch wsDemo).1 =
        some c2 ∧
      (get_cached_result 3 c2 cfgDemo.filePath "01" "04" "05").2 =
        some (scanRows wsDemo condsMatch cfgDemo) := by
  exact c6_nonempty_scan_cached 3 ⟨[]⟩ cfgDemo condsMatch wsDemo (by decide)
    (by decide)

/-- C9: empty filter results are never cached and never served from cache
— if the scan finds no matching rows the cache is left exactly as the
lookup left it (no store), and a cached empty row list is treated as a miss
(`if cached_rows:` is falsy), so the function rescans; hence criteria
matching no rows repeat the full scan on every run. -/
theorem c9_empty_never_cached (now : Nat) (c : FilterCache)
    (cfg : CuratorConfig) (conds : FilterConds) (ws : Worksheet) :
    (scanRows ws conds cfg = [] →
      (get_cached_result now c cfg.filePath (conds.f.getD "")
        (conds.g.getD "") (conds.h.getD "")).2 = none →
      fast_column_filter now (some c) cfg conds ws =
        (some (get_cached_result now c cfg.filePath (conds.f.getD "")
          (conds.g.getD "") (conds.h.getD "")).1, [])) ∧
    ((get_cached_result now c cfg.filePath (conds.f.getD "")
        (conds.g.getD "") (conds.h.getD "")).2 = some [] →
      (fast_column_filter now (some c) cfg conds ws).2 =
        scanRows ws conds cfg) := by
  constructor
  · intro hempty hmiss
    rw [fast_column_filter_of_miss now c cfg conds ws hmiss]
    unfold scan_and_store
    rw [if_pos (by simp [hempty]), hempty]
  · intro hsome
    rw [fast_column_filter_some_cache, hsome]
    simp only [List.isEmpty_nil, if_true]
    unfold scan_and_store
    by_cases he : (scanRows ws conds cfg).isEmpty
    · rw [if_pos he]
    · rw [if_neg he]

/-- C9 witness: with no matching rows and an empty cache the function
rescans and stores nothing; with a pre-seeded empty cached entry it ignores
the entry and rescans. -/
theorem c9_witness :
    fast_column_filter 0 (some ⟨[]⟩) cfgDemo condsNoMatch wsDemo =
      (some (get_cached_result 0 ⟨[]⟩ cfgDemo.filePath "01" "04" "99").1,
        []) ∧
    (fast_column_filter 0
      (some (save_filter_result 0 ⟨[]⟩ "a.xlsx" "01" "04" "99" [] none))
      cfgDemo condsNoMatch wsDemo).2 = scanRows wsDemo condsNoMatch cfgDemo := by
  constructor
  · exact (c9_empty_never_cached 0 ⟨[]⟩ cfgDemo condsNoMatch wsDemo).1
      (by decide) (by decide)
  · exact (c9_empty_never_cached 0
      (save_filter_result 0 ⟨[]⟩ "a.xlsx" "01" "04" "99" [] none)
      cfgDemo condsNoMatch wsDemo).2 (by decide)

/-! ## Claim about merge-time row-id collisions -/

/-- A corrupted ledger in which row 5 is recorded in two batch files — the
spec's "row recorded in two batches" data-integrity scenario. -/
def collidedState : BPState :=
  { batchSize := 10, baseDir := "d", completedRows := [5],
    batchFilesLedger := ["batch_001.json", "batch_002.json"],
    startTime := 0, lastUpdate := 0, currentBatch := [], currentBatchNum := 3,
    diskProgress := none,
    diskBatches :=
      [("batch_001.json",
        { batchNumber := 1, recordCount := 1, createdTime := 0,
          results := [(5, [("status", "success"), ("score", "85")])] }),
       ("batch_002.json",
        { batchNumber := 2, recordCount := 1, createdTime := 0,
          results := [(5, [("status", "parse failed")])] })] }

/-- C3: evaluating the merge at the failing input — two batch files both
containing row 5 — shows the code surfaces no error at all: the merge
succeeds, `dict.update` silently lets the later batch's record overwrite
the earlier one, and `total_processed` counts the row twice.  The spec
requires a fatal data-integrity error here, so this is a code defect, not
a spec defect. -/
theorem c3_collision_silently_resolved :
    (merge_all_batches 7 true collidedState (some "out.json")).2 =
      some ("out.json",
        { processingStartTime := 0, processingEndTime := 7,
          totalProcessed := 2, totalSuccess := 1, totalFailed := 1,
          batchCount := 2, batchSize := 10, batchDirectory := "d",
          results := [(5, [("status", "parse failed")])] }) ∧
    collidedState.completedRows.length = 1 := by
  decide

/-! ## Claim C7: consolidated totals after `finalize`

The proof maintains an invariant over every state reachable from a fresh
processor by `add_result` calls (all durable writes succeeding): each batch
file named in the ledger exists on disk, the batch files and the open batch
together hold exactly one record per completed row, the completed set has
no duplicates, and the batch file named by the next sequence number (or any
later one) does not exist yet. -/

/-- Record count contributed by one ledger entry during the merge. -/
def fileLen (disk : List (String × BatchData)) (f : String) : Nat :=
  match dlookup disk f with
  | none => 0
  | some bd => bd.results.length

/-- Success count contributed by one ledger entry during the merge. -/
def fileSucc (disk : List (String × BatchData)) (f : String) : Nat :=
  match dlookup disk f with
  | none => 0
  | some bd => (bd.results.filter (fun p => isSuccess p.2)).length

/-- Total record count over a ledger. -/
def totalLen (disk : List (String × BatchData)) (files : List String) : Nat :=
  (files.map (fileLen disk)).sum

/-- Total success count over a ledger. -/
def totalSucc (disk : List (String × BatchData)) (files : List String) : Nat :=
  (files.map (fileSucc disk)).sum

theorem mergeStep_foldl_counts (disk : List (String × BatchData))
    (files : List String) :
    ∀ (m : List (Int × Record)) (a b : Nat),
      ((files.foldl (mergeStep disk) (m, a, b)).2.1 =
        a + totalLen disk files) ∧
      ((files.foldl (mergeStep disk) (m, a, b)).2.2 =
        b + totalSucc disk files) := by
  induction files with
  | nil => intro m a b; simp [totalLen, totalSucc]
  | cons f t ih =>
    intro m a b
    simp only [List.foldl_cons, totalLen, totalSucc, List.map_cons,
      List.sum_cons]
    cases hf : dlookup disk f with
    | none =>
      have hstep : mergeStep disk (m, a, b) f = (m, a, b) := by
        unfold mergeStep
        rw [hf]
      have hL : fileLen disk f = 0 := by unfold fileLen; rw [hf]
      have hS : fileSucc disk f = 0 := by unfold fileSucc; rw [hf]
      rw [hstep, hL, hS]
      obtain ⟨ih1, ih2⟩ := ih m a b
      constructor
      · rw [ih1, totalLen]; omega
      · rw [ih2, totalSucc]; omega
    | some bd =>
      have hstep : mergeStep disk (m, a, b) f =
          (dupdate m bd.results, a + bd.results.length,
            b + (bd.results.filter (fun p => isSuccess p.2)).length) := by
        unfold mergeStep
        rw [hf]
      have hL : fileLen disk f = bd.results.length := by unfold fileLen; rw [hf]
      have hS : fileSucc disk f =
          (bd.results.filter (fun p => isSuccess p.2)).length := by
        unfold fileSucc; rw [hf]
      rw [hstep, hL, hS]
      obtain ⟨ih1, ih2⟩ := ih (dupdate m bd.results) (a + bd.results.length)
        (b + (bd.results.filter (fun p => isSuccess p.2)).length)
      constructor
      · rw [ih1, totalLen]; omega
      · rw [ih2, totalSucc]; omega

theorem totalLen_perm (disk : List (String × BatchData)) {l1 l2 : List String}
    (h : l1.Perm l2) : totalLen disk l1 = totalLen disk l2 :=
  (h.map (fileLen disk)).sum_eq

theorem totalSucc_perm (disk : List (String × BatchData)) {l1 l2 : List String}
    (h : l1.Perm l2) : totalSucc disk l1 = totalSucc disk l2 :=
  (h.map (fileSucc disk)).sum_eq

theorem totalSucc_le_totalLen (disk : List (String × BatchData))
    (files : List String) : totalSucc disk files ≤ totalLen disk files := by
  apply List.sum_le_sum
  intro f _
  unfold fileSucc fileLen
  cases dlookup disk f with
  | none => exact Nat.le_refl 0
  | some bd => exact List.length_filter_le _ _

/-- The inductive invariant for C7 (see the section comment). -/
def GoodState (s : BPState) : Prop :=
  (∀ j, s.currentBatchNum ≤ j →
    batchName j ∉ s.batchFilesLedger ∧
    dlookup s.diskBatches (batchName j) = none) ∧
  totalLen s.diskBatches s.batchFilesLedger + s.currentBatch.length =
    s.completedRows.length ∧
  s.completedRows.Nodup ∧
  (∀ r : Int, r ∉ s.completedRows → dlookup s.currentBatch r = none)

theorem goodState_init (bs : Nat) (dir : String) (now : Nat) :
    GoodState (initBP bs dir now none []) := by
  refine ⟨fun j _ => ⟨?_, ?_⟩, ?_, ?_, fun r _ => ?_⟩ <;>
    simp [initBP, totalLen, dlookup]

theorem save_current_batch_flush (now : Nat) (s : BPState)
    (hemp : ¬ s.currentBatch.isEmpty = true)
    (hmem : batchName s.currentBatchNum ∉ s.batchFilesLedger) :
    (save_current_batch now true true s).1 =
      { batchSize := s.batchSize, baseDir := s.baseDir,
        completedRows := s.completedRows,
        batchFilesLedger :=
          s.batchFilesLedger ++ [batchName s.currentBatchNum],
        startTime := s.startTime, lastUpdate := now,
        currentBatch := [],
        currentBatchNum := s.currentBatchNum + 1,
        diskProgress := some ⟨s.completedRows,
          s.batchFilesLedger ++ [batchName s.currentBatchNum],
          s.startTime, now⟩,
        diskBatches := dinsert s.diskBatches (batchName s.currentBatchNum)
          ⟨s.currentBatchNum, s.currentBatch.length, now,
            s.currentBatch⟩ } := by
  simp [save_current_batch, save_progress, hemp, hmem]

theorem goodState_save (now : Nat) (s : BPState) (h : GoodState s) :
    GoodState ((save_current_batch now true true s).1) ∧
    ((save_current_batch now true true s).1).completedRows =
      s.completedRows ∧
    ((save_current_batch now true true s).1).currentBatch = [] := by
  obtain ⟨h1, h2, h3, h4⟩ := h
  by_cases hemp : s.currentBatch.isEmpty
  · have hid : (save_current_batch now true true s).1 = s := by
      unfold save_current_batch
      rw [if_pos hemp]
    rw [hid]
    exact ⟨⟨h1, h2, h3, h4⟩, rfl, List.isEmpty_iff.mp hemp⟩
  · have hfresh := h1 s.currentBatchNum (Nat.le_refl _)
    rw [save_current_batch_flush now s hemp hfresh.1]
    refine ⟨⟨?_, ?_, h3, fun r _ => by simp [dlookup]⟩, rfl, rfl⟩
    · intro j hj
      simp only at hj
      have hj' := h1 j (by omega)
      have hne : batchName j ≠ batchName s.currentBatchNum := by
        intro he
        have := batchName_inj he
        omega
      refine ⟨?_, ?_⟩
      · simp only [List.mem_append, List.mem_singleton]
        rintro (hin | hin)
        · exact hj'.1 hin
        · exact hne hin
      · rw [dlookup_dinsert_ne _ _ _ _ hne]
        exact hj'.2
    · simp only [List.length_nil, Nat.add_zero]
      have hld : totalLen (dinsert s.diskBatches (batchName s.currentBatchNum)
          ⟨s.currentBatchNum, s.currentBatch.length, now, s.currentBatch⟩)
          s.batchFilesLedger = totalLen s.diskBatches s.batchFilesLedger := by
        unfold totalLen
        congr 1
        apply List.map_congr_left
        intro f hf
        have hne : f ≠ batchName s.currentBatchNum :=
          fun he => hfresh.1 (he ▸ hf)
        unfold fileLen
        rw [dlookup_dinsert_ne _ _ _ _ hne]
      have hnew : fileLen (dinsert s.diskBatches
          (batchName s.currentBatchNum)
          ⟨s.currentBatchNum, s.currentBatch.length, now, s.currentBatch⟩)
          (batchName s.currentBatchNum) = s.currentBatch.length := by
        unfold fileLen
        rw [dlookup_dinsert_self]
      unfold totalLen at hld ⊢
      rw [List.map_append, List.sum_append]
      simp only [List.map_cons, List.map_nil, List.sum_cons, List.sum_nil]
      rw [hld, hnew]
      unfold totalLen at h2
      omega

theorem goodState_add (now : Nat) (s : BPState) (r : Int) (rec : Record)
    (h : GoodState s) :
    GoodState ((add_result now true true s r rec).1) ∧
    ((add_result now true true s r rec).1).completedRows =
      (if r ∈ s.completedRows then s.completedRows
       else s.completedRows ++ [r]) := by
  obtain ⟨h1, h2, h3, h4⟩ := h
  by_cases hp : r ∈ s.completedRows
  · have hproc : is_processed s r = true := by
      simp [is_processed, hp]
    rw [add_result_of_processed now true true s r rec hproc, if_pos hp]
    exact ⟨⟨h1, h2, h3, h4⟩, rfl⟩
  · have hproc : is_processed s r = false := by
      simp [is_processed, hp]
    have hfresh : dlookup s.currentBatch r = none := h4 r hp
    have hins : dinsert s.currentBatch r rec = s.currentBatch ++ [(r, rec)] :=
      dinsert_of_lookup_none _ _ _ hfresh
    have hgood1 : GoodState
        { s with currentBatch := dinsert s.currentBatch r rec,
                 completedRows := s.completedRows ++ [r] } := by
      refine ⟨h1, ?_, ?_, ?_⟩
      · dsimp only
        rw [hins]
        simp only [List.length_append, List.length_singleton]
        unfold totalLen at h2 ⊢
        omega
      · simp [List.nodup_append, h3, hp]
      · intro r' hr'
        simp only [List.mem_append, List.mem_singleton, not_or] at hr'
        dsimp only
        rw [dlookup_dinsert_ne _ _ _ _ hr'.2]
        exact h4 r' hr'.1
    rw [if_neg hp]
    unfold add_result
    rw [hproc]
    simp only [Bool.false_eq_true, if_false]
    dsimp only
    by_cases hcap : (dinsert s.currentBatch r rec).length ≥ s.batchSize
    · rw [if_pos hcap]
      obtain ⟨hg, hc, _⟩ := goodState_save now _ hgood1
      exact ⟨hg, by rw [hc]⟩
    · rw [if_neg hcap]
      exact ⟨hgood1, rfl⟩

theorem goodState_runAdds (now : Nat) (ops : List (Int × Record))
    (s : BPState) (h : GoodState s) :
    GoodState (runAdds now ops s) ∧
    (∀ r : Int, r ∈ (runAdds now ops s).completedRows ↔
      r ∈ s.completedRows ∨ r ∈ ops.map Prod.fst) := by
  induction ops generalizing s with
  | nil =>
    refine ⟨h, fun r => ?_⟩
    simp [runAdds]
  | cons p t ih =>
    have hstep : runAdds now (p :: t) s =
        runAdds now t ((add_result now true true s p.1 p.2).1) := by
      simp [runAdds]
    obtain ⟨h1, h2⟩ := goodState_add now s p.1 p.2 h
    obtain ⟨h3, h4⟩ := ih _ h1
    rw [hstep]
    refine ⟨h3, fun r => ?_⟩
    rw [h4 r, h2]
    by_cases hel : p.1 ∈ s.completedRows
    · rw [if_pos hel]
      simp only [List.map_cons, List.mem_cons]
      constructor
      · rintro (hh | hh)
        · exact Or.inl hh
        · exact Or.inr (Or.inr hh)
      · rintro (hh | hh | hh)
        · exact Or.inl hh
        · subst hh
          exact Or.inl hel
        · exact Or.inr hh
    · rw [if_neg hel]
      simp only [List.mem_append, List.mem_singleton, List.map_cons,
        List.mem_cons]
      tauto

theorem merge_all_batches_totals (now : Nat) (s : BPState) (nm : String) :
    ∃ fd, (merge_all_batches now true s (some nm)).2 = some (nm, fd) ∧
      fd.totalProcessed = totalLen s.diskBatches s.batchFilesLedger ∧
      fd.totalSuccess = totalSucc s.diskBatches s.batchFilesLedger ∧
      fd.totalFailed = fd.totalProcessed - fd.totalSuccess := by
  unfold merge_all_batches
  dsimp only [Option.getD_some]
  refine ⟨_, rfl, ?_, ?_, ?_⟩
  · dsimp only
    rw [(mergeStep_foldl_counts s.diskBatches
      (sortStrings s.batchFilesLedger) [] 0 0).1, Nat.zero_add]
    exact totalLen_perm s.diskBatches (sortStrings_perm s.batchFilesLedger)
  · dsimp only
    rw [(mergeStep_foldl_counts s.diskBatches
      (sortStrings s.batchFilesLedger) [] 0 0).2, Nat.zero_add]
    exact totalSucc_perm s.diskBatches (sortStrings_perm s.batchFilesLedger)
  · rfl

/-- C7: from a fresh processor, after any sequence of `add_result` calls
(all durable writes succeeding) followed by `finalize`, the consolidated
artifact's `total_processed` equals the number of distinct row ids ever
successfully added across all batches, and
`total_success + total_failed = total_processed`, where `total_success`
counts merged records whose `status` field is `'success'`. -/
theorem c7_finalize_totals (bs : Nat) (dir : String) (now now2 : Nat)
    (name : String) (ops : List (Int × Record)) :
    ∃ fd, (finalize now2 true true true
        (runAdds now ops (initBP bs dir now none [])) (some name)).2 =
        some (name, fd) ∧
      fd.totalProcessed = ((ops.map Prod.fst).dedup).length ∧
      fd.totalSuccess + fd.totalFailed = fd.totalProcessed := by
  obtain ⟨hg, hmem⟩ := goodState_runAdds now ops _ (goodState_init bs dir now)
  set s := runAdds now ops (initBP bs dir now none []) with hs
  have hs1 : ∃ s1, (if s.currentBatch.isEmpty then s
      else (save_current_batch now2 true true s).1) = s1 ∧
      GoodState s1 ∧ s1.completedRows = s.completedRows ∧
      s1.currentBatch = [] := by
    by_cases hemp : s.currentBatch.isEmpty
    · exact ⟨s, by rw [if_pos hemp], hg, rfl, List.isEmpty_iff.mp hemp⟩
    · obtain ⟨hg1, hc1, he1⟩ := goodState_save now2 s hg
      exact ⟨_, by rw [if_neg hemp], hg1, hc1, he1⟩
  obtain ⟨s1, hif, hg1, hc1, he1⟩ := hs1
  have hfin : finalize now2 true true true s (some name) =
      merge_all_batches now2 true s1 (some name) := by
    unfold finalize
    rw [hif]
  rw [hfin]
  obtain ⟨fd, hfd, hp, hsc, hf⟩ := merge_all_batches_totals now2 s1 name
  refine ⟨fd, hfd, ?_, ?_⟩
  · rw [hp]
    obtain ⟨g1, g2, g3, g4⟩ := hg1
    rw [he1] at g2
    simp only [List.length_nil, Nat.add_zero] at g2
    rw [g2, hc1]
    have hmm : ∀ r : Int, r ∈ s.completedRows ↔ r ∈ ops.map Prod.fst := by
      intro r
      rw [hmem r]
      simp [initBP]
    have hperm : s.completedRows.Perm ((ops.map Prod.fst).dedup) := by
      rw [List.perm_ext_iff_of_nodup hg.2.2.1 (List.nodup_dedup _)]
      intro a
      rw [hmm a, List.mem_dedup]
    exact hperm.length_eq
  · rw [hf, hp, hsc]
    exact Nat.add_sub_cancel' (totalSucc_le_totalLen _ _)
